import Mathlib

/-!
Formal model of the `kyhwana/roughenough` Roughtime server.

The definitions below are a shallow embedding of the server binary
(`src/bin/server.rs`).  Types and constants of the `roughenough` library crate
(tags, wire constants, the `RtMessage` container and the `Signer` wrapper) are
not part of the five source files; where a definition embeds one of them it is
modelled from the specification and its doc comment says so.  Byte strings are
`List Nat` with each element a byte value; machine integers are `Nat` with
explicit reduction modulo `2 ^ w` where the Rust code relies on wrapping.
-/

namespace Roughenough

/-- Byte strings on the wire. -/
abbrev Bytes := List Nat

/-- Modelled from the spec: the error kinds of the `roughenough` crate that the
server code can produce (`RequestTooShort`, `InvalidRequest`, and the tag
ordering violation rejected by the message container). -/
inductive Error where
  | RequestTooShort
  | InvalidRequest
  | TagNotStrictlyIncreasing
  deriving DecidableEq, Repr

/-- Modelled from the spec: `MIN_REQUEST_LENGTH` is 1024 bytes, the
anti-amplification floor for requests. -/
def MIN_REQUEST_LENGTH : Nat := 1024

/-- Modelled from the spec: the 4-byte ASCII tag identifiers used by the core. -/
inductive Tag where
  | SIG
  | NONC
  | DELE
  | PATH
  | RADI
  | PUBK
  | MIDP
  | SREP
  | MINT
  | ROOT
  | CERT
  | MAXT
  | INDX
  | PAD
  deriving DecidableEq, Repr

/-- Modelled from the spec: the 4 bytes of each tag on the wire are its ASCII
identifier; the three-letter identifiers are filled to 4 bytes so that the
orders mandated by the spec hold under 32-bit little-endian comparison
(`SIG` is followed by 0x00 so it sorts first in a response, `PAD` by 0xff so it
sorts after `NONC` in a request). -/
def Tag.wire_value : Tag → Bytes
  | .SIG => [0x53, 0x49, 0x47, 0x00]
  | .NONC => [0x4e, 0x4f, 0x4e, 0x43]
  | .DELE => [0x44, 0x45, 0x4c, 0x45]
  | .PATH => [0x50, 0x41, 0x54, 0x48]
  | .RADI => [0x52, 0x41, 0x44, 0x49]
  | .PUBK => [0x50, 0x55, 0x42, 0x4b]
  | .MIDP => [0x4d, 0x49, 0x44, 0x50]
  | .SREP => [0x53, 0x52, 0x45, 0x50]
  | .MINT => [0x4d, 0x49, 0x4e, 0x54]
  | .ROOT => [0x52, 0x4f, 0x4f, 0x54]
  | .CERT => [0x43, 0x45, 0x52, 0x54]
  | .MAXT => [0x4d, 0x41, 0x58, 0x54]
  | .INDX => [0x49, 0x4e, 0x44, 0x58]
  | .PAD => [0x50, 0x41, 0x44, 0xff]

/-- Little-endian value of a byte string. -/
def le (b : Bytes) : Nat :=
  match b with
  | [] => 0
  | x :: rest => x + 256 * le rest

/-- Modelled from the spec: tag bytes are interpreted as little-endian 32-bit
integers for ordering purposes. -/
def Tag.numValue (t : Tag) : Nat := le t.wire_value

/-- `src/bin/server.rs`, `nonce_from_request`: extract the nonce of the client from
its request.  The receive buffer is examined at fixed offsets: the tag-count
word at `0..4`, the first tag at `8..12`, the second at `12..16`; on success
the nonce is the bytes at `0x10..0x50`. -/
def nonce_from_request (buf : Bytes) (num_bytes : Nat) : Except Error Bytes :=
  if num_bytes < MIN_REQUEST_LENGTH then
    .error .RequestTooShort
  else
    let tag_count := buf.take 4
    let expected_nonc := (buf.drop 8).take 4
    let expected_pad := (buf.drop 12).take 4
    if tag_count = [0x02, 0x00, 0x00, 0x00] ∧
        expected_nonc = Tag.NONC.wire_value ∧
        expected_pad = Tag.PAD.wire_value then
      .ok ((buf.drop 0x10).take 0x40)
    else
      .error .InvalidRequest

/-- Little-endian bytes of a `u32` (as produced by
`write_u32::<LittleEndian>`); a wider input is truncated as by an `as u32`
cast. -/
def u32LE (n : Nat) : Bytes :=
  [n % 256, n / 256 % 256, n / 65536 % 256, n / 16777216 % 256]

/-- Little-endian bytes of a `u64` (as produced by
`write_u64::<LittleEndian>`). -/
def u64LE (n : Nat) : Bytes :=
  [n % 256, n / 2 ^ 8 % 256, n / 2 ^ 16 % 256, n / 2 ^ 24 % 256,
   n / 2 ^ 32 % 256, n / 2 ^ 40 % 256, n / 2 ^ 48 % 256, n / 2 ^ 56 % 256]

/-- Modelled from the spec: the tagged-message container (`RtMessage`), an
ordered collection of `(Tag, bytes)` pairs with all tags distinct.  The
capacity argument of `RtMessage::new` is a `Vec` preallocation hint and does
not affect behaviour, so it is not modelled. -/
structure RtMessage where
  tags : List Tag
  values : List Bytes
  deriving DecidableEq, Repr

/-- Modelled from the spec: an empty message. -/
def RtMessage.new : RtMessage := ⟨[], []⟩

/-- Modelled from the spec: `add_field` appends a `(tag, value)` pair; tags
must be unique and supplied in ascending 32-bit little-endian order, any other
order is rejected. -/
def RtMessage.add_field (m : RtMessage) (t : Tag) (v : Bytes) :
    Except Error RtMessage :=
  match m.tags.getLast? with
  | some last =>
      if last.numValue < t.numValue then
        .ok ⟨m.tags ++ [t], m.values ++ [v]⟩
      else
        .error .TagNotStrictlyIncreasing
  | none => .ok ⟨m.tags ++ [t], m.values ++ [v]⟩

/-- Offsets of the second and later values measured from the start of the
value region: `acc` is the running byte count of the values already seen. -/
def offsetList (acc : Nat) : List Bytes → List Nat
  | [] => []
  | [_] => []
  | v :: rest => (acc + v.length) :: offsetList (acc + v.length) rest

/-- Modelled from the spec: wire encoding of a message with `N` fields — `N`
as 32-bit LE, then `N - 1` offsets (the starting byte of each value after the
first, measured from the start of the value region, each 32-bit LE), then the
`N` tags of 4 bytes each, then the values concatenated. -/
def RtMessage.encode (m : RtMessage) : Bytes :=
  u32LE m.tags.length
    ++ (offsetList 0 m.values).flatMap u32LE
    ++ m.tags.flatMap Tag.wire_value
    ++ m.values.flatten

/-- Look up the value stored under a tag in a message. -/
def RtMessage.get_field (m : RtMessage) (t : Tag) : Option Bytes :=
  ((m.tags.zip m.values).find? (fun p => p.1 == t)).map Prod.snd

/-- Modelled from the spec: the `Signer` wrapper around Ed25519 supports
streaming `update` followed by `sign`, which finalizes the accumulated bytes
and resets the accumulator; `public_key_bytes` returns the 32-byte public key.
The Ed25519 primitive itself is external (`ring`), so it appears as the
deterministic function `primSign` from the accumulated bytes to the
signature. -/
structure Signer where
  pubkey : Bytes
  primSign : Bytes → Bytes
  buf : Bytes

/-- Modelled from the spec: `update` appends bytes to the accumulator. -/
def Signer.update (s : Signer) (bytes : Bytes) : Signer :=
  { s with buf := s.buf ++ bytes }

/-- Modelled from the spec: `sign` finalizes the accumulator into a signature
and resets it so the signer may be reused. -/
def Signer.sign (s : Signer) : Bytes × Signer :=
  (s.primSign s.buf, { s with buf := [] })

/-- Modelled from the spec: `public_key_bytes`. -/
def Signer.public_key_bytes (s : Signer) : Bytes := s.pubkey

/-- Modelled from the spec: the context string prepended when signing DELE
under the long-term key. -/
def CERTIFICATE_CONTEXT : Bytes :=
  ("RoughTime v1 delegation signature--".toList.map Char.toNat) ++ [0x00]

/-- Modelled from the spec: the context string prepended when signing SREP
under the ephemeral key. -/
def SIGNED_RESPONSE_CONTEXT : Bytes :=
  ("RoughTime v1 response signature".toList.map Char.toNat) ++ [0x00]

/-- `src/bin/server.rs`, `make_dele_bytes`: build the DELE message
`{PUBK, MINT, MAXT}` with `MINT` eight zero bytes and `MAXT` eight 0xff
bytes, and encode it. -/
def make_dele_bytes (ephemeral_key : Signer) : Except Error Bytes := do
  let zeros := List.replicate 8 0x00
  let max := List.replicate 8 0xff
  let dele_msg := RtMessage.new
  let dele_msg ← dele_msg.add_field .PUBK ephemeral_key.public_key_bytes
  let dele_msg ← dele_msg.add_field .MINT zeros
  let dele_msg ← dele_msg.add_field .MAXT max
  .ok dele_msg.encode

/-- `src/bin/server.rs`, `make_key_and_cert`: sign
`CERTIFICATE_CONTEXT || DELE_bytes` with the long-term key and assemble
`CERT = {SIG, DELE}`.  Key derivation from the seed and the fresh randomness
behind the ephemeral key live in external crypto code, so the two signers are
taken as arguments; the `.unwrap()` calls of the source surface as the
`Except` monad. -/
def make_key_and_cert (long_term_key ephemeral_key : Signer) :
    Except Error (Signer × Bytes) := do
  let dele_bytes ← make_dele_bytes ephemeral_key
  let ltk := (long_term_key.update CERTIFICATE_CONTEXT).update dele_bytes
  let dele_signature := ltk.sign.1
  let cert_msg ← RtMessage.new.add_field .SIG dele_signature
  let cert_msg ← cert_msg.add_field .DELE dele_bytes
  .ok (ephemeral_key, cert_msg.encode)

/-- `u64` values wrap modulo `2 ^ 64` in the release-mode arithmetic of
`make_srep`. -/
def UINT64_MOD : Nat := 2 ^ 64

/-- `src/bin/server.rs`, `struct SRep`: the encoded signed response and its
signature. -/
structure SRep where
  raw_bytes : Bytes
  signature : Bytes
  deriving DecidableEq, Repr

/-- `src/bin/server.rs`, `make_srep`: write `RADI` as `1_000_000` u32 LE,
`MIDP` as the current epoch microseconds
`((tv.sec as u64) + secondsoffset) * 1_000_000 + (tv.nsec as u64) / 1_000`
in wrapping u64 arithmetic, build `SREP = {RADI, MIDP, ROOT}` and sign
`SIGNED_RESPONSE_CONTEXT || SREP_bytes` with the ephemeral key.  The host
clock reading `time::get_time()` is external, so its seconds and nanoseconds
(already cast to u64 values) are arguments. -/
def make_srep (ephemeral_key : Signer) (root : Bytes) (secondsoffset : Nat)
    (tv_sec tv_nsec : Nat) : Except Error (SRep × Signer) := do
  let radi := u32LE 1000000
  let now :=
    ((((tv_sec + secondsoffset) % UINT64_MOD) * 1000000) % UINT64_MOD
      + tv_nsec / 1000) % UINT64_MOD
  let midp := u64LE now
  let srep_msg ← RtMessage.new.add_field .RADI radi
  let srep_msg ← srep_msg.add_field .MIDP midp
  let srep_msg ← srep_msg.add_field .ROOT root
  let srep_bytes := srep_msg.encode
  let k := (ephemeral_key.update SIGNED_RESPONSE_CONTEXT).update srep_bytes
  let srep_signature := k.sign.1
  .ok ({ raw_bytes := srep_bytes, signature := srep_signature }, k.sign.2)

/-- `src/bin/server.rs`, `make_response`: the per-client response message
`{SIG, PATH, SREP, CERT, INDX}` with `INDX` the batch index as u32 LE. -/
def make_response (srep : SRep) (cert_bytes : Bytes) (path : Bytes)
    (idx : Nat) : Except Error RtMessage := do
  let index := u32LE idx
  let response ← RtMessage.new.add_field .SIG srep.signature
  let response ← response.add_field .PATH path
  let response ← response.add_field .SREP srep.raw_bytes
  let response ← response.add_field .CERT cert_bytes
  let response ← response.add_field .INDX index
  .ok response

/-- Source addresses as reported by `recv_from`; their internal structure is
irrelevant to the server, so they are opaque identifiers. -/
abbrev SocketAddr := Nat

/-- Outcome of the response fan-out loop of `polling_loop`: either every
response of the batch was handed to `send_to` (listed in send order), or the
process aborted through an `expect` panic. -/
inductive BatchOutcome where
  | completed (sent : List (SocketAddr × RtMessage))
  | panicked (msg : String)
  deriving Repr

/-- `src/bin/server.rs`, `polling_loop` lines 368–387: the response fan-out
over the accepted requests of a batch.  For batch position `i` the Merkle path
`merkle.get_paths i` (Merkle code is external to the server binary, so the
path function is an argument), the response `make_response srep cert path i`
and its encoding are computed, and the encoded bytes are passed to
`socket.send_to`; the source call `.expect("send_to failed")` on a send error and
the `.unwrap()` on encoding surface as `panicked`. -/
def send_loop (send : Bytes → SocketAddr → Option Nat) (srep : SRep)
    (cert_bytes : Bytes) (get_paths : Nat → Bytes) :
    Nat → List (Bytes × SocketAddr) → BatchOutcome
  | _, [] => .completed []
  | i, (_nonce, src_addr) :: rest =>
    match make_response srep cert_bytes (get_paths i) i with
    | .error _ => .panicked "encode failed"
    | .ok resp =>
      match send resp.encode src_addr with
      | none => .panicked "send_to failed"
      | some _bytes_sent =>
        match send_loop send srep cert_bytes get_paths (i + 1) rest with
        | .completed sent => .completed ((src_addr, resp) :: sent)
        | .panicked m => .panicked m

/-- Values of the YAML scalars that `load_config` inspects. -/
inductive YamlVal where
  | int (n : Int)
  | str (s : String)
  deriving DecidableEq, Repr

/-- The mutable locals of `load_config` before the key loop runs, with their
source initial values: `port = 0`, `iface = "unknown"`, `seed = ""`,
`batch_size = 1`, `secondsoffset = 0`. -/
structure ConfigAcc where
  port : Nat
  iface : String
  seed : String
  batch_size : Nat
  secondsoffset : Nat
  deriving DecidableEq, Repr

/-- Initial values of the locals of `load_config`. -/
def initAcc : ConfigAcc :=
  { port := 0, iface := "unknown", seed := "", batch_size := 1,
    secondsoffset := 0 }

/-- Wrapping truncation of an `i64` by a Rust `as` cast to an unsigned
type of modulus `m`. -/
def intCast (n : Int) (m : Nat) : Nat := (n % (m : Int)).toNat

/-- One iteration of the key loop of `load_config`: the recognised keys update one
local each (`as_i64().unwrap()` / `as_str().unwrap()` panics on a scalar of
the wrong shape are `none`); any other key is logged with `warn!` and
ignored. -/
def apply_config_entry (acc : ConfigAcc) (kv : String × YamlVal) :
    Option ConfigAcc :=
  if kv.1 = "port" then
    match kv.2 with
    | .int n => some { acc with port := intCast n 65536 }
    | _ => none
  else if kv.1 = "interface" then
    match kv.2 with
    | .str s => some { acc with iface := s }
    | _ => none
  else if kv.1 = "seed" then
    match kv.2 with
    | .str s => some { acc with seed := s }
    | _ => none
  else if kv.1 = "batch_size" then
    match kv.2 with
    | .int n => some { acc with batch_size := intCast n 256 }
    | _ => none
  else if kv.1 = "secondsoffset" then
    match kv.2 with
    | .int n => some { acc with secondsoffset := intCast n UINT64_MOD }
    | _ => none
  else
    some acc

/-- One hexadecimal digit, as `hex::decode` accepts them. -/
def hexDigit (c : Char) : Option Nat :=
  if 48 ≤ c.toNat ∧ c.toNat ≤ 57 then some (c.toNat - 48)
  else if 97 ≤ c.toNat ∧ c.toNat ≤ 102 then some (c.toNat - 87)
  else if 65 ≤ c.toNat ∧ c.toNat ≤ 70 then some (c.toNat - 55)
  else none

/-- `hex::decode` on a character list: fails on odd length or a non-hex
character, otherwise produces one byte per digit pair. -/
def hexDecodeList : List Char → Option Bytes
  | [] => some []
  | [_] => none
  | c1 :: c2 :: rest => do
      let hi ← hexDigit c1
      let lo ← hexDigit c2
      let tail ← hexDecodeList rest
      some ((hi * 16 + lo) :: tail)

/-- `hex::decode` on a string. -/
def hexDecode (s : String) : Option Bytes := hexDecodeList s.toList

/-- `src/bin/server.rs`, `load_config` lines 242–266: fold the YAML hash over
the locals, parse the socket address formatted as the string
`"{iface}:{port}"` with `.expect("could not create socket address from ...")`,
then decode the seed from hex with `.expect("seed value invalid; ...")` — each
`expect` / `panic` startup failure is `none`, and the address parse runs
before the seed decode as in the source.  File I/O, YAML parsing and the std
library implementation of the `SocketAddr` string parse are external
(std / yaml-rust), so the parsed hash and the address parser are arguments. -/
def load_config (parseAddr : String → Option SocketAddr)
    (cfg : List (String × YamlVal)) :
    Option (SocketAddr × ConfigAcc × Bytes) := do
  let acc ← cfg.foldlM apply_config_entry initAcc
  let addr := acc.iface ++ ":" ++ toString acc.port
  let sock_addr ← parseAddr addr
  let binseed ← hexDecode acc.seed
  some (sock_addr, acc, binseed)

/-- `src/bin/roughenough-kms.rs`, `main` lines 90–96: the KMS tool rejects a
decoded seed whose length is not 32 bytes. -/
def kms_seed_length_ok (plaintext_seed : Bytes) : Bool :=
  plaintext_seed.length == 32

/-- `src/bin/server.rs`, `polling_loop` line 284: the status timer period is
the fixed `Duration::from_secs(6)`, in seconds. -/
def status_duration : Nat := 6

/-- `src/bin/server.rs`, `polling_loop` lines 394–402: on a `STATUS` event the
server logs the `responses` and `invalid requests` counters and re-arms the
timer with `status_duration`.  The result is the logged counter pair and the
timeout the timer is re-armed with. -/
def handle_status_event (response_counter num_bad_requests : Nat) :
    (Nat × Nat) × Nat :=
  ((response_counter, num_bad_requests), status_duration)

section Theorems

/-- C1: for a datagram of `num_bytes` bytes, `nonce_from_request` accepts and
returns the 64 bytes at buffer offsets `0x10..0x50` as the nonce if and only
if `num_bytes ≥ 1024` (`MIN_REQUEST_LENGTH`), the tag-count field (bytes
`0..4`) equals 2 as a 32-bit LE integer, the first tag (bytes `8..12`) is
`NONC` and the second tag (bytes `12..16`) is `PAD`; when `num_bytes < 1024`
it fails with `RequestTooShort`, and on any other deviation it fails with
`InvalidRequest`. -/
theorem nonce_from_request_spec (buf : Bytes) (num_bytes : Nat)
    (hlen : 0x50 ≤ buf.length) :
    ((nonce_from_request buf num_bytes).isOk = true ↔
      (MIN_REQUEST_LENGTH ≤ num_bytes ∧
        buf.take 4 = [0x02, 0x00, 0x00, 0x00] ∧
        (buf.drop 8).take 4 = Tag.NONC.wire_value ∧
        (buf.drop 12).take 4 = Tag.PAD.wire_value)) ∧
    ((MIN_REQUEST_LENGTH ≤ num_bytes ∧
        buf.take 4 = [0x02, 0x00, 0x00, 0x00] ∧
        (buf.drop 8).take 4 = Tag.NONC.wire_value ∧
        (buf.drop 12).take 4 = Tag.PAD.wire_value) →
      nonce_from_request buf num_bytes = .ok ((buf.drop 0x10).take 0x40)) ∧
    ((buf.drop 0x10).take 0x40).length = 64 ∧
    (num_bytes < MIN_REQUEST_LENGTH →
      nonce_from_request buf num_bytes = .error .RequestTooShort) ∧
    (MIN_REQUEST_LENGTH ≤ num_bytes →
      ¬(buf.take 4 = [0x02, 0x00, 0x00, 0x00] ∧
          (buf.drop 8).take 4 = Tag.NONC.wire_value ∧
          (buf.drop 12).take 4 = Tag.PAD.wire_value) →
      nonce_from_request buf num_bytes = .error .InvalidRequest) := by
  have hlen64 : ((buf.drop 0x10).take 0x40).length = 64 := by
    simp [List.length_take, List.length_drop]
    omega
  by_cases hshort : num_bytes < MIN_REQUEST_LENGTH
  · refine ⟨?_, ?_, hlen64, ?_, ?_⟩
    · simp [nonce_from_request, hshort, Except.isOk, Except.toBool]
    · intro h
      omega
    · intro _
      simp [nonce_from_request, hshort]
    · intro h
      omega
  · by_cases htags : buf.take 4 = [0x02, 0x00, 0x00, 0x00] ∧
        (buf.drop 8).take 4 = Tag.NONC.wire_value ∧
        (buf.drop 12).take 4 = Tag.PAD.wire_value
    · refine ⟨?_, ?_, hlen64, ?_, ?_⟩
      · simp [nonce_from_request, hshort, htags, Except.isOk, Except.toBool]
        omega
      · intro _
        simp [nonce_from_request, hshort, htags]
      · intro h
        omega
      · intro _ hcon
        exact absurd htags hcon
    · refine ⟨?_, ?_, hlen64, ?_, ?_⟩
      · simp [nonce_from_request, hshort, htags, Except.isOk, Except.toBool]
      · intro h
        exact absurd h.2 htags
      · intro h
        omega
      · intro _ _
        simp [nonce_from_request, hshort, htags]

/-- The first 0x50 bytes of a well-framed 1024-byte request: tag count 2, an
arbitrary offset word, tags `NONC` then `PAD`, then a 64-byte nonce of
sevens. -/
def wbuf : Bytes :=
  [0x02, 0x00, 0x00, 0x00] ++ [0x00, 0x00, 0x00, 0x00] ++
    Tag.NONC.wire_value ++ Tag.PAD.wire_value ++ List.replicate 64 7

/-- C1 witness: the validation characterisation evaluated on a concrete
well-framed request of 1024 bytes. -/
theorem nonce_from_request_spec_witness :
    0x50 ≤ wbuf.length ∧
    (((nonce_from_request wbuf 1024).isOk = true ↔
      (MIN_REQUEST_LENGTH ≤ 1024 ∧
        wbuf.take 4 = [0x02, 0x00, 0x00, 0x00] ∧
        (wbuf.drop 8).take 4 = Tag.NONC.wire_value ∧
        (wbuf.drop 12).take 4 = Tag.PAD.wire_value)) ∧
    ((MIN_REQUEST_LENGTH ≤ 1024 ∧
        wbuf.take 4 = [0x02, 0x00, 0x00, 0x00] ∧
        (wbuf.drop 8).take 4 = Tag.NONC.wire_value ∧
        (wbuf.drop 12).take 4 = Tag.PAD.wire_value) →
      nonce_from_request wbuf 1024 = .ok ((wbuf.drop 0x10).take 0x40)) ∧
    ((wbuf.drop 0x10).take 0x40).length = 64 ∧
    (1024 < MIN_REQUEST_LENGTH →
      nonce_from_request wbuf 1024 = .error .RequestTooShort) ∧
    (MIN_REQUEST_LENGTH ≤ 1024 →
      ¬(wbuf.take 4 = [0x02, 0x00, 0x00, 0x00] ∧
          (wbuf.drop 8).take 4 = Tag.NONC.wire_value ∧
          (wbuf.drop 12).take 4 = Tag.PAD.wire_value) →
      nonce_from_request wbuf 1024 = .error .InvalidRequest)) :=
  ⟨by decide, nonce_from_request_spec wbuf 1024 (by decide)⟩

/-- C10: `nonce_from_request` depends only on `num_bytes`, bytes `0..4` and
bytes `8..0x50` of the receive buffer — two buffers agreeing on those ranges
yield identical results for the same `num_bytes`, so the 32-bit offset word at
bytes `4..8` and everything from `0x50` onward (the `PAD` value) are never
examined. -/
theorem nonce_from_request_locality (buf1 buf2 : Bytes) (num_bytes : Nat)
    (h04 : buf1.take 4 = buf2.take 4)
    (h850 : (buf1.drop 8).take 0x48 = (buf2.drop 8).take 0x48) :
    nonce_from_request buf1 num_bytes = nonce_from_request buf2 num_bytes := by
  have e1 : (buf1.drop 8).take 4 = (buf2.drop 8).take 4 := by
    have h := congrArg (List.take 4) h850
    simpa [List.take_take] using h
  have e2 : (buf1.drop 12).take 4 = (buf2.drop 12).take 4 := by
    have h := congrArg (fun l => List.take 4 (List.drop 4 l)) h850
    simpa [List.drop_take, List.take_take, List.drop_drop] using h
  have e3 : (buf1.drop 0x10).take 0x40 = (buf2.drop 0x10).take 0x40 := by
    have h := congrArg (List.drop 8) h850
    simpa [List.drop_take, List.drop_drop] using h
  simp only [nonce_from_request, h04, e1, e2, e3]

/-- A variant of `wbuf` that differs in the offset word (bytes `4..8`) and in
trailing `PAD` bytes beyond offset `0x50`. -/
def wbufVariant : Bytes :=
  [0x02, 0x00, 0x00, 0x00] ++ [0x09, 0x09, 0x09, 0x09] ++
    Tag.NONC.wire_value ++ Tag.PAD.wire_value ++ List.replicate 64 7 ++
    [0x05, 0x06, 0x07, 0x08]

/-- A copy of `wbuf` extended past offset `0x50` with different trailing
bytes. -/
def wbufExtended : Bytes := wbuf ++ [0x01, 0x02, 0x03, 0x04]

/-- C10 witness: two concrete buffers that differ in the offset word and after
offset `0x50` receive identical verdicts. -/
theorem nonce_from_request_locality_witness :
    wbufExtended.take 4 = wbufVariant.take 4 ∧
    (wbufExtended.drop 8).take 0x48 = (wbufVariant.drop 8).take 0x48 ∧
    nonce_from_request wbufExtended 1024 = nonce_from_request wbufVariant 1024 :=
  ⟨by decide, by decide,
    nonce_from_request_locality wbufExtended wbufVariant 1024 (by decide)
      (by decide)⟩

/-- Shared computation lemma: `make_response` always succeeds and produces the
five-field message. -/
lemma make_response_eq (srep : SRep) (cert_bytes path : Bytes) (idx : Nat) :
    make_response srep cert_bytes path idx =
      .ok ⟨[Tag.SIG, Tag.PATH, Tag.SREP, Tag.CERT, Tag.INDX],
        [srep.signature, path, srep.raw_bytes, cert_bytes, u32LE idx]⟩ := rfl

/-- C4: the response message built by `make_response` contains exactly five
fields, added in the order `SIG`, `PATH`, `SREP`, `CERT`, `INDX`, where `SIG`
is the SREP signature, `PATH` the Merkle path of the client, `SREP` the encoded
signed-response bytes, `CERT` the startup certificate bytes, and `INDX` the
batch position as u32 LE; all five are always present. -/
theorem make_response_spec (srep : SRep) (cert_bytes path : Bytes) (idx : Nat) :
    make_response srep cert_bytes path idx =
      .ok ⟨[Tag.SIG, Tag.PATH, Tag.SREP, Tag.CERT, Tag.INDX],
        [srep.signature, path, srep.raw_bytes, cert_bytes, u32LE idx]⟩ :=
  make_response_eq srep cert_bytes path idx

/-- Wrapping u64 arithmetic folds into a single final reduction. -/
lemma wrap_mul_add (a b c m : Nat) :
    (((a % m) * b) % m + c) % m = (a * b + c) % m :=
  ((Nat.mod_modEq ((a % m) * b) m).trans
    ((Nat.mod_modEq a m).mul_right b)).add_right c

/-- C3: `make_srep` sets `RADI` to `1_000_000` as u32 LE and `MIDP` to
`(tv_sec + secondsoffset) * 1_000_000 + tv_nsec / 1_000` as u64 LE (wrapping
modulo `2 ^ 64`), and the SREP message consists of exactly the fields `RADI`,
`MIDP`, `ROOT` with `ROOT` the supplied Merkle root; the signature covers
`SIGNED_RESPONSE_CONTEXT || SREP_bytes` through the accumulator of the ephemeral key. -/
theorem make_srep_spec (ephemeral_key : Signer) (root : Bytes)
    (secondsoffset tv_sec tv_nsec : Nat) :
    make_srep ephemeral_key root secondsoffset tv_sec tv_nsec =
      .ok ({ raw_bytes :=
               RtMessage.encode ⟨[Tag.RADI, Tag.MIDP, Tag.ROOT],
                 [u32LE 1000000,
                  u64LE (((tv_sec + secondsoffset) * 1000000 + tv_nsec / 1000)
                    % UINT64_MOD),
                  root]⟩,
             signature :=
               ephemeral_key.primSign ((ephemeral_key.buf
                 ++ SIGNED_RESPONSE_CONTEXT)
                 ++ RtMessage.encode ⟨[Tag.RADI, Tag.MIDP, Tag.ROOT],
                   [u32LE 1000000,
                    u64LE (((tv_sec + secondsoffset) * 1000000 + tv_nsec / 1000)
                      % UINT64_MOD),
                    root]⟩) },
           { ephemeral_key with buf := [] }) := by
  have harith :
      ((((tv_sec + secondsoffset) % UINT64_MOD) * 1000000) % UINT64_MOD
          + tv_nsec / 1000) % UINT64_MOD =
        ((tv_sec + secondsoffset) * 1000000 + tv_nsec / 1000) % UINT64_MOD :=
    wrap_mul_add (tv_sec + secondsoffset) 1000000 (tv_nsec / 1000) UINT64_MOD
  simp only [make_srep, harith]
  rfl

/-- C5: at startup the DELE message consists of exactly the fields
`PUBK` = the 32-byte ephemeral public key, `MINT` = eight `0x00` bytes and
`MAXT` = eight `0xff` bytes, and the CERT is the two-field message
`{SIG: long-term signature over CERTIFICATE_CONTEXT || DELE_bytes,
DELE: DELE_bytes}`. -/
theorem make_key_and_cert_spec (long_term_key ephemeral_key : Signer)
    (hfresh : long_term_key.buf = [])
    (hpk : ephemeral_key.pubkey.length = 32) :
    ephemeral_key.public_key_bytes.length = 32 ∧
    make_dele_bytes ephemeral_key =
      .ok (RtMessage.encode ⟨[Tag.PUBK, Tag.MINT, Tag.MAXT],
        [ephemeral_key.pubkey, List.replicate 8 0x00, List.replicate 8 0xff]⟩) ∧
    make_key_and_cert long_term_key ephemeral_key =
      .ok (ephemeral_key,
        RtMessage.encode ⟨[Tag.SIG, Tag.DELE],
          [long_term_key.primSign (CERTIFICATE_CONTEXT ++
             RtMessage.encode ⟨[Tag.PUBK, Tag.MINT, Tag.MAXT],
               [ephemeral_key.pubkey, List.replicate 8 0x00,
                List.replicate 8 0xff]⟩),
           RtMessage.encode ⟨[Tag.PUBK, Tag.MINT, Tag.MAXT],
             [ephemeral_key.pubkey, List.replicate 8 0x00,
              List.replicate 8 0xff]⟩]⟩) := by
  obtain ⟨ltpk, ltsign, ltbuf⟩ := long_term_key
  replace hfresh : ltbuf = [] := hfresh
  subst hfresh
  exact ⟨hpk, rfl, rfl⟩

/-- A concrete long-term signer with an empty accumulator, standing in for
`Signer::new(seed)`. -/
def ltkW : Signer := ⟨List.replicate 32 3, fun b => b.take 64, []⟩

/-- A concrete ephemeral signer with a 32-byte public key. -/
def ekW : Signer := ⟨List.replicate 32 1, fun b => b.take 64, []⟩

/-- C5 witness: the DELE/CERT construction evaluated on concrete signers. -/
theorem make_key_and_cert_spec_witness :
    ltkW.buf = [] ∧ ekW.pubkey.length = 32 ∧
    (ekW.public_key_bytes.length = 32 ∧
    make_dele_bytes ekW =
      .ok (RtMessage.encode ⟨[Tag.PUBK, Tag.MINT, Tag.MAXT],
        [ekW.pubkey, List.replicate 8 0x00, List.replicate 8 0xff]⟩) ∧
    make_key_and_cert ltkW ekW =
      .ok (ekW,
        RtMessage.encode ⟨[Tag.SIG, Tag.DELE],
          [ltkW.primSign (CERTIFICATE_CONTEXT ++
             RtMessage.encode ⟨[Tag.PUBK, Tag.MINT, Tag.MAXT],
               [ekW.pubkey, List.replicate 8 0x00, List.replicate 8 0xff]⟩),
           RtMessage.encode ⟨[Tag.PUBK, Tag.MINT, Tag.MAXT],
             [ekW.pubkey, List.replicate 8 0x00, List.replicate 8 0xff]⟩]⟩)) :=
  ⟨rfl, by decide, make_key_and_cert_spec ltkW ekW rfl (by decide)⟩

/-- The responses the fan-out loop produces for the accepted requests of a
batch, starting at batch position `i`. -/
def expected_responses (srep : SRep) (cert_bytes : Bytes) (get_paths : Nat → Bytes) :
    Nat → List (Bytes × SocketAddr) → List (SocketAddr × RtMessage)
  | _, [] => []
  | i, (_, src) :: rest =>
    (src, ⟨[Tag.SIG, Tag.PATH, Tag.SREP, Tag.CERT, Tag.INDX],
       [srep.signature, get_paths i, srep.raw_bytes, cert_bytes, u32LE i]⟩) ::
      expected_responses srep cert_bytes get_paths (i + 1) rest

/-- When every `send_to` succeeds, the fan-out loop completes with exactly the
expected responses. -/
lemma send_loop_all_ok (sendRet : Bytes → SocketAddr → Nat) (srep : SRep)
    (cert_bytes : Bytes) (get_paths : Nat → Bytes) :
    ∀ (reqs : List (Bytes × SocketAddr)) (i : Nat),
      send_loop (fun b a => some (sendRet b a)) srep cert_bytes get_paths i reqs =
        .completed (expected_responses srep cert_bytes get_paths i reqs) := by
  intro reqs
  induction reqs with
  | nil => intro i; rfl
  | cons hd tl ih =>
    intro i
    obtain ⟨nonce, src⟩ := hd
    simp only [send_loop, make_response_eq, expected_responses, ih]

/-- The fan-out produces one response per accepted request. -/
lemma expected_responses_length (srep : SRep) (cert_bytes : Bytes)
    (get_paths : Nat → Bytes) :
    ∀ (reqs : List (Bytes × SocketAddr)) (i : Nat),
      (expected_responses srep cert_bytes get_paths i reqs).length = reqs.length := by
  intro reqs
  induction reqs with
  | nil => intro i; rfl
  | cons hd tl ih =>
    intro i
    obtain ⟨nonce, src⟩ := hd
    simp [expected_responses, ih]

/-- Responses are addressed, in order, to the sources of the accepted
requests. -/
lemma expected_responses_addrs (srep : SRep) (cert_bytes : Bytes)
    (get_paths : Nat → Bytes) :
    ∀ (reqs : List (Bytes × SocketAddr)) (i : Nat),
      (expected_responses srep cert_bytes get_paths i reqs).map Prod.fst =
        reqs.map Prod.snd := by
  intro reqs
  induction reqs with
  | nil => intro i; rfl
  | cons hd tl ih =>
    intro i
    obtain ⟨nonce, src⟩ := hd
    simp [expected_responses, ih]

/-- The `INDX` field of the response at batch position `j` of a fan-out
starting at `i` is `u32LE (i + j)`. -/
lemma expected_responses_indx (srep : SRep) (cert_bytes : Bytes)
    (get_paths : Nat → Bytes) :
    ∀ (reqs : List (Bytes × SocketAddr)) (i : Nat),
      (expected_responses srep cert_bytes get_paths i reqs).map
          (fun p => p.2.get_field Tag.INDX) =
        (List.range reqs.length).map (fun j => some (u32LE (i + j))) := by
  intro reqs
  induction reqs with
  | nil => intro i; rfl
  | cons hd tl ih =>
    intro i
    obtain ⟨nonce, src⟩ := hd
    have hcons :
        List.range (tl.length + 1) = 0 :: (List.range tl.length).map (· + 1) :=
      List.range_succ_eq_map tl.length
    simp only [expected_responses, List.map_cons, List.length_cons, hcons,
      List.map_map, ih]
    refine congrArg₂ _ ?_ ?_
    · rfl
    · refine List.map_congr_left (fun a _ => ?_)
      simp only [Function.comp]
      rw [show i + 1 + a = i + (a + 1) by omega]

/-- C2: for a batch of `k ≥ 1` accepted requests (at most `batch_size`), the
fan-out loop of `polling_loop` emits exactly `k` responses; the `i`-th
response in nonce-receipt order goes to the source address of the `i`-th
accepted request and carries `INDX = i` as u32 LE for `i = 0 .. k-1`.  Sends
are modelled as succeeding — a failing `send_to` aborts through `expect`. -/
theorem batch_fanout_spec (sendRet : Bytes → SocketAddr → Nat) (srep : SRep)
    (cert_bytes : Bytes) (get_paths : Nat → Bytes)
    (reqs : List (Bytes × SocketAddr)) (hk : 1 ≤ reqs.length) :
    send_loop (fun b a => some (sendRet b a)) srep cert_bytes get_paths 0 reqs =
      .completed (expected_responses srep cert_bytes get_paths 0 reqs) ∧
    (expected_responses srep cert_bytes get_paths 0 reqs).length = reqs.length ∧
    (expected_responses srep cert_bytes get_paths 0 reqs).map Prod.fst =
      reqs.map Prod.snd ∧
    (expected_responses srep cert_bytes get_paths 0 reqs).map
        (fun p => p.2.get_field Tag.INDX) =
      (List.range reqs.length).map (fun j => some (u32LE j)) := by
  refine ⟨send_loop_all_ok sendRet srep cert_bytes get_paths reqs 0,
    expected_responses_length srep cert_bytes get_paths reqs 0,
    expected_responses_addrs srep cert_bytes get_paths reqs 0, ?_⟩
  have h := expected_responses_indx srep cert_bytes get_paths reqs 0
  simpa using h

/-- A concrete SREP for witnesses and counterexamples. -/
def srepX : SRep := ⟨[0x01], [0x02]⟩

/-- A concrete Merkle-path function. -/
def gpX : Nat → Bytes := fun _ => []

/-- C2 witness: the fan-out evaluated on a concrete single-request batch. -/
theorem batch_fanout_spec_witness :
    1 ≤ ([(List.replicate 64 0, (5 : SocketAddr))]).length ∧
    (send_loop (fun b a => some ((fun (_ : Bytes) (_ : SocketAddr) => 0) b a))
        srepX [] gpX 0 [(List.replicate 64 0, (5 : SocketAddr))] =
      .completed (expected_responses srepX [] gpX 0
        [(List.replicate 64 0, (5 : SocketAddr))]) ∧
    (expected_responses srepX [] gpX 0
        [(List.replicate 64 0, (5 : SocketAddr))]).length =
      ([(List.replicate 64 0, (5 : SocketAddr))]).length ∧
    (expected_responses srepX [] gpX 0
        [(List.replicate 64 0, (5 : SocketAddr))]).map Prod.fst =
      ([(List.replicate 64 0, (5 : SocketAddr))]).map Prod.snd ∧
    (expected_responses srepX [] gpX 0
        [(List.replicate 64 0, (5 : SocketAddr))]).map
        (fun p => p.2.get_field Tag.INDX) =
      (List.range ([(List.replicate 64 0, (5 : SocketAddr))]).length).map
        (fun j => some (u32LE j))) :=
  ⟨by decide,
    batch_fanout_spec (fun _ _ => 0) srepX [] gpX
      [(List.replicate 64 0, (5 : SocketAddr))] (by decide)⟩

/-- A send function that always fails, as for an unreachable client. -/
def failSend : Bytes → SocketAddr → Option Nat := fun _ _ => none

/-- C6 counterexample: on a concrete two-request batch whose sends fail, the
fan-out loop panics through `.expect("send_to failed")` instead of logging and
continuing with the next response — the outcome is `panicked`, not a completed
batch. -/
theorem send_failure_counterexample :
    send_loop failSend srepX [] gpX 0
        [(List.replicate 64 0, (0 : SocketAddr)),
         (List.replicate 64 1, (1 : SocketAddr))] =
      .panicked "send_to failed" := rfl

/-- C6 amended: if `socket.send_to` fails for a response in a batch, the
server panics with `"send_to failed"` (the `expect` call), terminating the
process; it does not log at error level and continue with the next response
in the batch. -/
theorem send_failure_panics (send : Bytes → SocketAddr → Option Nat)
    (srep : SRep) (cert_bytes : Bytes) (get_paths : Nat → Bytes) (i : Nat)
    (nonce : Bytes) (src : SocketAddr) (rest : List (Bytes × SocketAddr))
    (hfail :
      send (RtMessage.encode ⟨[Tag.SIG, Tag.PATH, Tag.SREP, Tag.CERT, Tag.INDX],
        [srep.signature, get_paths i, srep.raw_bytes, cert_bytes, u32LE i]⟩)
        src = none) :
    send_loop send srep cert_bytes get_paths i ((nonce, src) :: rest) =
      .panicked "send_to failed" := by
  simp only [send_loop, make_response_eq, hfail]

/-- C6 witness: the panic behaviour evaluated on a concrete failing send. -/
theorem send_failure_panics_witness :
    failSend (RtMessage.encode ⟨[Tag.SIG, Tag.PATH, Tag.SREP, Tag.CERT, Tag.INDX],
        [srepX.signature, gpX 0, srepX.raw_bytes, [], u32LE 0]⟩) 3 = none ∧
    send_loop failSend srepX [] gpX 0 [(List.replicate 64 0, (3 : SocketAddr))] =
      .panicked "send_to failed" :=
  ⟨rfl, send_failure_panics failSend srepX [] gpX 0 (List.replicate 64 0) 3 [] rfl⟩

/-- Stand-in for the std socket-address parser, recording its verdicts on the
concrete strings that arise below: `"127.0.0.1:8686"` is a valid IPv4
socket-address literal and parses, while every other string that can arise
from the configurations used here (such as the default `"unknown:0"`, whose
host part is not an IP literal) fails. -/
def parseAddrX : String → Option SocketAddr := fun s =>
  if s = "127.0.0.1:8686" then some 0 else none

/-- A concrete configuration with a parseable socket address and a seed that
hex-decodes to 2 bytes. -/
def cfg7 : List (String × YamlVal) :=
  [(("interface" : String), YamlVal.str "127.0.0.1"),
   ("port", YamlVal.int 8686), ("seed", YamlVal.str "abcd")]

/-- The locals of `load_config` after folding `cfg7`. -/
def acc7 : ConfigAcc :=
  { port := 8686, iface := "127.0.0.1", seed := "abcd", batch_size := 1,
    secondsoffset := 0 }

/-- C7 counterexample: a concrete configuration whose socket address
`127.0.0.1:8686` parses and whose seed hex decodes to 2 bytes is accepted by
`load_config`, which returns the 2-byte seed — server startup does not fail
on a seed length different from 32. -/
theorem seed_length_counterexample :
    load_config parseAddrX cfg7 = some (0, acc7, [0xab, 0xcd]) ∧
    ([0xab, 0xcd] : Bytes).length ≠ 32 := by
  constructor
  · rfl
  · decide

/-- C7 amended: `load_config` performs no seed length check — for every
configuration whose socket-address string parses, it fails startup only when
the seed is not valid hex, and otherwise returns the decoded seed bytes of
whatever length; only the `roughenough-kms` tool enforces that the decoded
seed is exactly 32 bytes long. -/
theorem load_config_seed_spec (parseAddr : String → Option SocketAddr)
    (cfg : List (String × YamlVal)) (acc : ConfigAcc) (sa : SocketAddr)
    (b : Bytes) (hfold : cfg.foldlM apply_config_entry initAcc = some acc)
    (haddr : parseAddr (acc.iface ++ ":" ++ toString acc.port) = some sa) :
    load_config parseAddr cfg =
      (hexDecode acc.seed).map (fun s => (sa, acc, s)) ∧
    (kms_seed_length_ok b = true ↔ b.length = 32) := by
  constructor
  · have hstep : load_config parseAddr cfg =
        (parseAddr (acc.iface ++ ":" ++ toString acc.port)).bind fun sock =>
          (hexDecode acc.seed).bind fun s => some (sock, acc, s) := by
      simp only [load_config, hfold]
      rfl
    rw [hstep, haddr]
    show (hexDecode acc.seed).bind (fun s => some (sa, acc, s)) =
      (hexDecode acc.seed).map (fun s => (sa, acc, s))
    cases hexDecode acc.seed <;> rfl
  · simp [kms_seed_length_ok]

/-- C7 witness: the seed handling evaluated on a concrete configuration with
a parseable socket address and a 2-byte seed. -/
theorem load_config_seed_spec_witness :
    cfg7.foldlM apply_config_entry initAcc = some acc7 ∧
    parseAddrX (acc7.iface ++ ":" ++ toString acc7.port) = some 0 ∧
    (load_config parseAddrX cfg7 =
      (hexDecode acc7.seed).map (fun s => (0, acc7, s)) ∧
    (kms_seed_length_ok [0xab, 0xcd] = true ↔
      ([0xab, 0xcd] : Bytes).length = 32)) :=
  ⟨rfl, rfl, load_config_seed_spec parseAddrX cfg7 acc7 0 [0xab, 0xcd] rfl rfl⟩

/-- C8 counterexample: the status timer period is the hard-coded 6 seconds,
not 600, and a `status_interval` configuration key is ignored by
the key loop of `load_config` (it falls into the unknown-key `warn!` branch and
changes nothing). -/
theorem status_interval_counterexample :
    handle_status_event 0 0 = ((0, 0), 6) ∧ status_duration ≠ 600 ∧
    apply_config_entry initAcc ("status_interval", YamlVal.int 600) =
      some initAcc := by
  refine ⟨rfl, by decide, ?_⟩
  rfl

/-- C8 amended: the status timer is armed, and re-armed after each firing,
with the fixed period `status_duration = 6` seconds — the `load_config` of the server binary recognises no `status_interval` key — and on each firing it
logs the `responses` and `bad_requests` counters. -/
theorem status_timer_spec :
    (∀ responses bad_requests : Nat,
      handle_status_event responses bad_requests =
        ((responses, bad_requests), status_duration)) ∧
    status_duration = 6 ∧
    (∀ (acc : ConfigAcc) (v : YamlVal),
      apply_config_entry acc ("status_interval", v) = some acc) := by
  refine ⟨fun _ _ => rfl, rfl, fun acc v => ?_⟩
  rfl

/-- A concrete configuration with a parseable socket address, a valid hex
seed, and no `batch_size` key. -/
def cfg9 : List (String × YamlVal) :=
  [(("interface" : String), YamlVal.str "127.0.0.1"),
   ("port", YamlVal.int 8686), ("seed", YamlVal.str "ab")]

/-- The locals of `load_config` after folding `cfg9`. -/
def acc9 : ConfigAcc :=
  { port := 8686, iface := "127.0.0.1", seed := "ab", batch_size := 1,
    secondsoffset := 0 }

/-- C9 counterexample: a concrete configuration without a `batch_size` key
makes the server run with `batch_size = 1`, not 64. -/
theorem batch_size_default_counterexample :
    (load_config parseAddrX cfg9).map (fun p => p.2.1.batch_size) = some 1 ∧
    (1 : Nat) ≠ 64 := by
  constructor
  · rfl
  · decide

/-- A single key-loop iteration on a key other than `batch_size` leaves
`batch_size` unchanged. -/
lemma apply_config_entry_batch_size (acc acc2 : ConfigAcc)
    (kv : String × YamlVal) (hk : kv.1 ≠ "batch_size")
    (h : apply_config_entry acc kv = some acc2) :
    acc2.batch_size = acc.batch_size := by
  obtain ⟨k, v⟩ := kv
  simp only [apply_config_entry] at h
  split_ifs at h with h1 h2 h3 h4
  · cases v with
    | int n => rw [← Option.some_inj.mp h]
    | str s => exact absurd h (by simp)
  · cases v with
    | int n => exact absurd h (by simp)
    | str s => rw [← Option.some_inj.mp h]
  · cases v with
    | int n => exact absurd h (by simp)
    | str s => rw [← Option.some_inj.mp h]
  · cases v with
    | int n => rw [← Option.some_inj.mp h]
    | str s => exact absurd h (by simp)
  · rw [← Option.some_inj.mp h]

/-- The key loop leaves `batch_size` unchanged when no entry uses the
`batch_size` key. -/
lemma foldlM_batch_size :
    ∀ (cfg : List (String × YamlVal)) (acc0 acc : ConfigAcc),
      (cfg.all fun kv => kv.1 != "batch_size") = true →
      cfg.foldlM apply_config_entry acc0 = some acc →
      acc.batch_size = acc0.batch_size := by
  intro cfg
  induction cfg with
  | nil =>
    intro acc0 acc _ h
    have h2 : acc0 = acc := Option.some_inj.mp h
    rw [← h2]
  | cons hd tl ih =>
    intro acc0 acc hall h
    simp only [List.all_cons, Bool.and_eq_true, bne_iff_ne] at hall
    simp only [List.foldlM_cons] at h
    cases h1 : apply_config_entry acc0 hd with
    | none =>
      rw [h1] at h
      exact Option.noConfusion h
    | some acc1 =>
      rw [h1] at h
      replace h : tl.foldlM apply_config_entry acc1 = some acc := h
      have hrest : (tl.all fun kv => kv.1 != "batch_size") = true := hall.2
      rw [ih acc1 acc hrest h,
        apply_config_entry_batch_size acc0 acc1 hd hall.1 h1]

/-- C9 amended: when the configuration omits the `batch_size` key, the server
runs with the `load_config` default `batch_size = 1` (the value 64 is only
the `FileConfig` default, which the server binary does not use). -/
theorem load_config_default_batch_size (parseAddr : String → Option SocketAddr)
    (cfg : List (String × YamlVal)) (sa : SocketAddr) (acc : ConfigAcc)
    (binseed : Bytes)
    (hk : (cfg.all fun kv => kv.1 != "batch_size") = true)
    (h : load_config parseAddr cfg = some (sa, acc, binseed)) :
    acc.batch_size = 1 := by
  simp only [load_config] at h
  cases hf : cfg.foldlM apply_config_entry initAcc with
  | none =>
    rw [hf] at h
    exact Option.noConfusion h
  | some acc1 =>
    rw [hf] at h
    replace h : (parseAddr (acc1.iface ++ ":" ++ toString acc1.port)).bind
        (fun sock => (hexDecode acc1.seed).bind fun s =>
          some (sock, acc1, s)) = some (sa, acc, binseed) := h
    cases ha : parseAddr (acc1.iface ++ ":" ++ toString acc1.port) with
    | none =>
      rw [ha] at h
      exact Option.noConfusion h
    | some sock =>
      rw [ha] at h
      replace h : (hexDecode acc1.seed).bind (fun s => some (sock, acc1, s)) =
        some (sa, acc, binseed) := h
      cases hx : hexDecode acc1.seed with
      | none =>
        rw [hx] at h
        exact Option.noConfusion h
      | some bs =>
        rw [hx] at h
        have hpair : (sock, acc1, bs) = (sa, acc, binseed) :=
          Option.some_inj.mp h
        have hacc : acc1 = acc := congrArg (fun p => p.2.1) hpair
        rw [← hacc]
        exact foldlM_batch_size cfg initAcc acc1 hk hf

/-- C9 witness: the default batch size evaluated on a concrete configuration
without a `batch_size` key. -/
theorem load_config_default_batch_size_witness :
    (cfg9.all fun kv => kv.1 != "batch_size") = true ∧
    load_config parseAddrX cfg9 = some (0, acc9, [0xab]) ∧
    acc9.batch_size = 1 :=
  ⟨by decide, rfl,
    load_config_default_batch_size parseAddrX cfg9 0 acc9 [0xab]
      (by decide) rfl⟩

end Theorems

end Roughenough
